import Mathlib

/-!
Verification of the jacques-context-manager estimation core against its
specification. The development shallowly embeds the Python modules
hooks/adapters/calibration.py, hooks/adapters/tokenizer.py and
hooks/adapters/context_parser.py as executable Lean definitions:
Python floats and timestamps become rationals, Python ints become
integers, dictionaries become association lists, fallible operations
return Option, and the ambient clock (time.time) becomes an explicit
argument. Theorems below settle the frozen claims about these modules.
-/

set_option maxRecDepth 16384

namespace Jacques

namespace Calibration

/-- Embedding of one per-session dictionary stored under the key
session_id in calibration.json. A field holding none models an absent
dictionary key (calibration.py line 39 documents the shape). -/
structure SessionRecord where
  factor : Option ℚ
  last_estimate : Option ℤ
  estimate_time : Option ℚ
  last_actual : Option ℤ
  calibrated_at : Option ℚ
  updated_at : Option ℚ
deriving DecidableEq, Repr

/-- A session dictionary with no keys, as created by set_last_estimate
before it fills in fields (calibration.py line 166). -/
def emptyRecord : SessionRecord :=
  { factor := none, last_estimate := none, estimate_time := none,
    last_actual := none, calibrated_at := none, updated_at := none }

/-- Embedding of the full calibration store content: the sessions
mapping (an association list standing for the Python dictionary, which
preserves insertion order) and the diagnostic global_factor
(calibration.py lines 38-41). -/
structure CalibrationData where
  sessions : List (String × SessionRecord)
  global_factor : ℚ
deriving DecidableEq

/-- The store produced by _load_calibration when no file exists:
no sessions and global_factor 1.0 (calibration.py lines 38-41). -/
def initialData : CalibrationData :=
  { sessions := [], global_factor := 1 }

/-- Dictionary read: first binding of the key, none when absent. -/
def lookupAL (k : String) : List (String × SessionRecord) → Option SessionRecord
  | [] => none
  | (k1, v) :: t => if k1 = k then some v else lookupAL k t

/-- Dictionary write: replace the binding in place when the key is
present, append otherwise (Python dictionary assignment semantics). -/
def insertAL (k : String) (v : SessionRecord) :
    List (String × SessionRecord) → List (String × SessionRecord)
  | [] => [(k, v)]
  | (k1, v1) :: t => if k1 = k then (k, v) :: t else (k1, v1) :: insertAL k v t

/-- Dictionary deletion of a key (Python del). -/
def eraseAL (k : String) (m : List (String × SessionRecord)) :
    List (String × SessionRecord) :=
  m.filter (fun kv => !(kv.1 == k))

/-- Embedding of get_factor (calibration.py lines 67-90): only the
session-specific factor is consulted, never global_factor; the default
is 1.0. The Python guard "if session_data and factor in session_data"
is the match below: an empty dictionary is falsy and also has no factor
key, so both reduce to the factor field being present. -/
def get_factor (data : CalibrationData) (session_id : String) : ℚ :=
  match lookupAL session_id data.sessions with
  | some r =>
    match r.factor with
    | some f => f
    | none => 1
  | none => 1

/-- The clamp applied by set_factor (calibration.py line 109):
max(0.5, min(2.0, factor)). -/
def clampFactor (f : ℚ) : ℚ :=
  max (1 / 2) (min 2 f)

/-- Embedding of set_factor (calibration.py lines 93-126). The session
entry is assigned a fresh two-key dictionary holding only the clamped
factor and updated_at; afterwards global_factor is recomputed as the
mean of the factors of all sessions whose updated_at lies within the
last 86400 seconds, with the defaults s.get(factor, 1.0) and
s.get(updated_at, 0). The two time.time() calls inside the Python
function are modelled by the single ambient instant now. -/
def set_factor (data : CalibrationData) (session_id : String) (factor : ℚ)
    (now : ℚ) : CalibrationData :=
  let f := clampFactor factor
  let sessions1 :=
    insertAL session_id
      { emptyRecord with factor := some f, updated_at := some now }
      data.sessions
  let recent :=
    (sessions1.map (fun kv => kv.2)).filterMap
      (fun r =>
        if r.updated_at.getD 0 > now - 86400 then some (r.factor.getD 1)
        else none)
  let g :=
    if recent = [] then data.global_factor
    else recent.sum / (recent.length : ℚ)
  { sessions := sessions1, global_factor := g }

/-- Embedding of get_last_estimate (calibration.py lines 129-147):
returns the last_estimate field of the session dictionary when the
dictionary is present (a truthy empty dictionary cannot hold the key,
so the match is equivalent to the Python truthiness guard). -/
def get_last_estimate (data : CalibrationData) (session_id : String) :
    Option ℤ :=
  match lookupAL session_id data.sessions with
  | some r => r.last_estimate
  | none => none

/-- Embedding of set_last_estimate (calibration.py lines 150-171):
creates the session dictionary when absent, then sets last_estimate and
estimate_time, leaving every other field alone. -/
def set_last_estimate (data : CalibrationData) (session_id : String)
    (tokens : ℤ) (now : ℚ) : CalibrationData :=
  let r := (lookupAL session_id data.sessions).getD emptyRecord
  { data with
    sessions :=
      insertAL session_id
        { r with last_estimate := some tokens, estimate_time := some now }
        data.sessions }

/-- Embedding of calibrate_from_actual (calibration.py lines 174-202).
The Python guard "if not estimated or estimated <= 0" is the none case
together with est ≤ 0 (an estimate of 0 is falsy and also non-positive,
so the two renderings agree). On success the raw ratio is returned
while only the clamped value is stored via set_factor, and last_actual
with calibrated_at are added to the freshly written record. Returns the
factor alongside the updated store. -/
def calibrate_from_actual (data : CalibrationData) (session_id : String)
    (actual_tokens : ℤ) (now : ℚ) : Option ℚ × CalibrationData :=
  match get_last_estimate data session_id with
  | none => (none, data)
  | some est =>
    if est ≤ 0 then (none, data)
    else
      let factor := (actual_tokens : ℚ) / (est : ℚ)
      let data1 := set_factor data session_id factor now
      let data2 :=
        match lookupAL session_id data1.sessions with
        | some r =>
          { data1 with
            sessions :=
              insertAL session_id
                { r with last_actual := some actual_tokens,
                         calibrated_at := some now }
                data1.sessions }
        | none => data1
      (some factor, data2)

/-- Embedding of clear_session (calibration.py lines 205-218): the
session entry is deleted when present. -/
def clear_session (data : CalibrationData) (session_id : String) :
    CalibrationData :=
  { data with sessions := eraseAL session_id data.sessions }

theorem lookupAL_insertAL_self (k : String) (v : SessionRecord)
    (m : List (String × SessionRecord)) :
    lookupAL k (insertAL k v m) = some v := by
  induction m with
  | nil => simp [insertAL, lookupAL]
  | cons hd tl ih =>
    obtain ⟨k1, v1⟩ := hd
    by_cases h : k1 = k
    · simp [insertAL, h, lookupAL]
    · simp [insertAL, h, lookupAL, ih]

theorem lookupAL_insertAL_ne (k k1 : String) (v : SessionRecord)
    (m : List (String × SessionRecord)) (h : k1 ≠ k) :
    lookupAL k1 (insertAL k v m) = lookupAL k1 m := by
  have hk : ¬(k = k1) := fun h3 => h h3.symm
  induction m with
  | nil => simp [insertAL, lookupAL, hk]
  | cons hd tl ih =>
    obtain ⟨k2, v2⟩ := hd
    by_cases h2 : k2 = k
    · subst h2
      simp only [insertAL, if_pos rfl, lookupAL, if_neg hk]
    · simp only [insertAL, if_neg h2, lookupAL]
      rw [ih]

theorem lookupAL_eraseAL_self (k : String)
    (m : List (String × SessionRecord)) :
    lookupAL k (eraseAL k m) = none := by
  induction m with
  | nil => simp [eraseAL, lookupAL]
  | cons hd tl ih =>
    obtain ⟨k1, v1⟩ := hd
    by_cases h : k1 = k
    · simpa [eraseAL, h, lookupAL] using ih
    · simpa [eraseAL, h, lookupAL] using ih

theorem lookupAL_eraseAL_ne (k k1 : String)
    (m : List (String × SessionRecord)) (h : k1 ≠ k) :
    lookupAL k1 (eraseAL k m) = lookupAL k1 m := by
  have hk : ¬(k = k1) := fun h3 => h h3.symm
  induction m with
  | nil => simp [eraseAL, lookupAL]
  | cons hd tl ih =>
    obtain ⟨k2, v2⟩ := hd
    by_cases h2 : k2 = k
    · subst h2
      have hdrop : eraseAL k2 ((k2, v2) :: tl) = eraseAL k2 tl := by
        simp [eraseAL]
      rw [hdrop, ih, lookupAL, if_neg hk]
    · have hkeep : eraseAL k ((k2, v2) :: tl) = (k2, v2) :: eraseAL k tl := by
        simp [eraseAL, h2]
      rw [hkeep]
      simp only [lookupAL]
      rw [ih]

theorem get_factor_ignores_global (data : CalibrationData) (g : ℚ)
    (s : String) :
    get_factor { data with global_factor := g } s = get_factor data s := rfl

/-- Session s has no stored factor field in the store. -/
def factorUnset (data : CalibrationData) (s : String) : Prop :=
  (lookupAL s data.sessions).bind (fun r => r.factor) = none

theorem get_factor_eq_one_of_factorUnset (data : CalibrationData)
    (s : String) (h : factorUnset data s) : get_factor data s = 1 := by
  cases hl : lookupAL s data.sessions with
  | none => simp [get_factor, hl]
  | some r =>
    have hf : r.factor = none := by simpa [factorUnset, hl] using h
    simp [get_factor, hl, hf]

/-- Operations of the calibration store public interface, used to state
trace properties about calls made over the lifetime of the store. -/
inductive Op where
  | opSetFactor (s : String) (f : ℚ) (t : ℚ)
  | opSetLastEstimate (s : String) (tok : ℤ) (t : ℚ)
  | opCalibrate (s : String) (a : ℤ) (t : ℚ)
  | opClear (s : String)

def applyOp (data : CalibrationData) : Op → CalibrationData
  | Op.opSetFactor s f t => set_factor data s f t
  | Op.opSetLastEstimate s tok t => set_last_estimate data s tok t
  | Op.opCalibrate s a t => (calibrate_from_actual data s a t).2
  | Op.opClear s => clear_session data s

def runOps (data : CalibrationData) : List Op → CalibrationData
  | [] => data
  | op :: rest => runOps (applyOp data op) rest

/-- An operation writes the factor field of session s exactly when it
is set_factor on s, or calibrate_from_actual on s in a state holding a
positive last_estimate (the only case in which calibrate_from_actual
reaches its internal set_factor call). -/
def writesFactor (s : String) (data : CalibrationData) : Op → Bool
  | Op.opSetFactor s1 _ _ => s1 == s
  | Op.opCalibrate s1 _ _ =>
    s1 == s &&
      (match get_last_estimate data s1 with
       | none => false
       | some e => decide (0 < e))
  | _ => false

/-- No operation along the trace writes the factor field of s. -/
def noFactorWritesB (s : String) : CalibrationData → List Op → Bool
  | _, [] => true
  | data, op :: rest =>
    !(writesFactor s data op) && noFactorWritesB s (applyOp data op) rest

theorem applyOp_preserves_factorUnset (data : CalibrationData) (s : String)
    (op : Op) (h : factorUnset data s)
    (hw : writesFactor s data op = false) :
    factorUnset (applyOp data op) s := by
  cases op with
  | opSetFactor s1 f t =>
    have hne : s ≠ s1 := by
      intro hEq
      subst hEq
      simp [writesFactor] at hw
    simp only [applyOp, factorUnset, set_factor]
    rw [lookupAL_insertAL_ne _ _ _ _ hne]
    exact h
  | opSetLastEstimate s1 tok t =>
    by_cases hEq : s = s1
    · subst hEq
      simp only [applyOp, factorUnset, set_last_estimate]
      rw [lookupAL_insertAL_self]
      cases hl : lookupAL s data.sessions with
      | none => simp [hl, emptyRecord]
      | some r =>
        have hf : r.factor = none := by simpa [factorUnset, hl] using h
        simp [hl, hf]
    · simp only [applyOp, factorUnset, set_last_estimate]
      rw [lookupAL_insertAL_ne _ _ _ _ hEq]
      exact h
  | opCalibrate s1 a t =>
    simp only [applyOp]
    cases hl : get_last_estimate data s1 with
    | none =>
      simp only [calibrate_from_actual, hl]
      exact h
    | some e =>
      by_cases he : e ≤ 0
      · simp only [calibrate_from_actual, hl, if_pos he]
        exact h
      · have hne : s ≠ s1 := by
          intro hEq
          subst hEq
          have hpos : 0 < e := not_le.mp he
          simp [writesFactor, hl, hpos] at hw
        simp only [calibrate_from_actual, hl, if_neg he, factorUnset,
          set_factor, lookupAL_insertAL_self]
        rw [lookupAL_insertAL_ne _ _ _ _ hne,
          lookupAL_insertAL_ne _ _ _ _ hne]
        exact h
  | opClear s1 =>
    by_cases hEq : s = s1
    · subst hEq
      simp [applyOp, factorUnset, clear_session, lookupAL_eraseAL_self]
    · simp only [applyOp, factorUnset, clear_session]
      rw [lookupAL_eraseAL_ne _ _ _ hEq]
      exact h

theorem runOps_factorUnset (s : String) (ops : List Op)
    (data : CalibrationData) (h0 : factorUnset data s)
    (h : noFactorWritesB s data ops = true) :
    factorUnset (runOps data ops) s := by
  induction ops generalizing data with
  | nil => exact h0
  | cons op rest ih =>
    rw [noFactorWritesB, Bool.and_eq_true, Bool.not_eq_true'] at h
    exact ih (applyOp data op)
      (applyOp_preserves_factorUnset data s op h0 h.1) h.2

/-- C4: a session on which set_factor was never executed (directly or
through a successful calibrate_from_actual) keeps the default factor
1.0, whatever the other sessions hold, and get_factor is insensitive to
the stored diagnostic global_factor. -/
theorem C4_get_factor_default (data : CalibrationData) (s : String)
    (ops : List Op) (h0 : factorUnset data s)
    (h : noFactorWritesB s data ops = true) :
    get_factor (runOps data ops) s = 1 ∧
    (∀ g : ℚ, get_factor { runOps data ops with global_factor := g } s =
      get_factor (runOps data ops) s) := by
  constructor
  · exact get_factor_eq_one_of_factorUnset _ _ (runOps_factorUnset s ops data h0 h)
  · intro g
    exact get_factor_ignores_global (runOps data ops) g s

/-- Concrete trace instantiating C4: a failed calibration on s, factor
and calibration traffic on a different session, an estimate on s. -/
def c4Trace : List Op :=
  [Op.opCalibrate "s" 50 0, Op.opSetFactor "other" (3 / 2) 0,
   Op.opSetLastEstimate "s" 100 0, Op.opSetLastEstimate "other" 40 0,
   Op.opCalibrate "other" 50 0, Op.opClear "other"]

theorem C4_get_factor_default_witness :
    factorUnset initialData "s" ∧
    noFactorWritesB "s" initialData c4Trace = true ∧
    get_factor (runOps initialData c4Trace) "s" = 1 := by
  refine ⟨rfl, by decide, ?_⟩
  exact (C4_get_factor_default initialData "s" c4Trace rfl (by decide)).1

/-- C5: calibrate_from_actual on a session with an absent or
non-positive last_estimate returns none and leaves the whole store
untouched. -/
theorem C5_calibrate_no_estimate_noop (data : CalibrationData)
    (s : String) (a : ℤ) (t : ℚ)
    (h : ∀ e : ℤ, get_last_estimate data s = some e → e ≤ 0) :
    calibrate_from_actual data s a t = (none, data) := by
  cases hl : get_last_estimate data s with
  | none => simp [calibrate_from_actual, hl]
  | some e =>
    have he : e ≤ 0 := h e hl
    simp [calibrate_from_actual, hl, he]

theorem C5_calibrate_no_estimate_noop_witness :
    (∀ e : ℤ, get_last_estimate initialData "s" = some e → e ≤ 0) ∧
    calibrate_from_actual initialData "s" 7 0 = (none, initialData) :=
  ⟨fun _ he => Option.noConfusion he,
   C5_calibrate_no_estimate_noop initialData "s" 7 0
     (fun _ he => Option.noConfusion he)⟩

/-- C1 (amended): after set_last_estimate(s, e) with e positive,
calibrate_from_actual(s, a) returns the raw ratio a / e, while the
stored factor read back by get_factor(s) is the clamped value
clamp(a / e, 0.5, 2.0); the returned and the stored value coincide
exactly when the ratio already lies in [0.5, 2]. -/
theorem C1_calibrate_after_estimate (data : CalibrationData) (s : String)
    (e a : ℤ) (t1 t2 : ℚ) (he : 0 < e) :
    ((calibrate_from_actual (set_last_estimate data s e t1) s a t2).1 =
        some ((a : ℚ) / (e : ℚ))) ∧
    (get_factor (calibrate_from_actual (set_last_estimate data s e t1) s a t2).2 s =
        clampFactor ((a : ℚ) / (e : ℚ))) := by
  have h1 : get_last_estimate (set_last_estimate data s e t1) s = some e := by
    simp [get_last_estimate, set_last_estimate, lookupAL_insertAL_self]
  have hne : ¬(e ≤ 0) := not_le.mpr he
  constructor
  · simp [calibrate_from_actual, h1, hne]
  · simp [calibrate_from_actual, h1, hne, set_factor, get_factor,
      lookupAL_insertAL_self]

theorem C1_calibrate_after_estimate_witness :
    (0 : ℤ) < 1000 ∧
    ((calibrate_from_actual (set_last_estimate initialData "s" 1000 0) "s" 1500 0).1 =
        some ((1500 : ℚ) / (1000 : ℚ))) ∧
    (get_factor (calibrate_from_actual (set_last_estimate initialData "s" 1000 0) "s" 1500 0).2 "s" =
        clampFactor ((1500 : ℚ) / (1000 : ℚ))) := by
  refine ⟨by decide, ?_, ?_⟩
  · exact (C1_calibrate_after_estimate initialData "s" 1000 1500 0 0 (by decide)).1
  · exact (C1_calibrate_after_estimate initialData "s" 1000 1500 0 0 (by decide)).2

/-- C1 counterexample: with estimate 1000 and actual 10000 the code
returns the raw ratio 10.0 from calibrate_from_actual, not the clamped
value 2.0 the claim asserts as the return value. -/
theorem C1_counterexample :
    (calibrate_from_actual (set_last_estimate initialData "s" 1000 0) "s" 10000 0).1 ≠
      some (clampFactor ((10000 : ℚ) / (1000 : ℚ))) := by
  have h1 : (calibrate_from_actual (set_last_estimate initialData "s" 1000 0) "s" 10000 0).1 =
      some ((10000 : ℚ) / (1000 : ℚ)) := by
    simp [calibrate_from_actual, get_last_estimate, set_last_estimate,
      lookupAL, insertAL, initialData, emptyRecord]
  have h2 : clampFactor ((10000 : ℚ) / (1000 : ℚ)) = 2 := by
    rw [clampFactor]
    norm_num
  rw [h1, h2]
  intro hEq
  have h3 : ((10000 : ℚ) / (1000 : ℚ)) = 2 := Option.some.inj hEq
  norm_num at h3

/-- C2 (amended): set_factor replaces the whole record of session s by
a fresh record holding only the clamped factor and updated_at, clearing
last_estimate and every other field; other sessions are untouched; in
particular a last_estimate written before set_factor reads back as
absent afterwards. -/
theorem C2_set_factor_replaces_record (data : CalibrationData)
    (s s1 : String) (f t : ℚ) :
    (lookupAL s (set_factor data s f t).sessions =
        some { emptyRecord with factor := some (clampFactor f),
                                updated_at := some t }) ∧
    (s1 ≠ s →
      lookupAL s1 (set_factor data s f t).sessions =
        lookupAL s1 data.sessions) ∧
    (∀ (tok : ℤ) (t1 : ℚ),
      get_last_estimate (set_factor (set_last_estimate data s tok t1) s f t) s =
        none) := by
  refine ⟨?_, ?_, ?_⟩
  · simp [set_factor, lookupAL_insertAL_self]
  · intro h
    simp [set_factor, lookupAL_insertAL_ne _ _ _ _ h]
  · intro tok t1
    simp [get_last_estimate, set_factor, lookupAL_insertAL_self, emptyRecord]

theorem C2_set_factor_replaces_record_witness :
    ("other" : String) ≠ "s" ∧
    lookupAL "other" (set_factor initialData "s" 1 0).sessions =
      lookupAL "other" initialData.sessions ∧
    get_last_estimate (set_factor (set_last_estimate initialData "s" 5 0) "s" 1 0) "s" =
      none := by
  refine ⟨by decide, ?_, ?_⟩
  · exact (C2_set_factor_replaces_record initialData "s" "other" 1 0).2.1 (by decide)
  · exact (C2_set_factor_replaces_record initialData "s" "other" 1 0).2.2 5 0

/-- C2 counterexample: writing an estimate and then a factor for the
same session loses the estimate, contradicting the frame claim that
set_factor leaves the other fields of the record unchanged. -/
theorem C2_counterexample :
    get_last_estimate (set_factor (set_last_estimate initialData "s" 5 0) "s" 1 0) "s" ≠
      some 5 := by
  decide

end Calibration

namespace Tokenizer

/-- Embedding of estimate_tokens (tokenizer.py lines 41-59). The
tiktoken encoder, a third-party component, is abstracted as an optional
encoding function; when it is unavailable the fallback estimate is
floor(length / 4). A none text models the Python None argument, and the
guard "if not text" covers both none and the empty string. -/
def estimate_tokens (encoder : Option (String → List ℕ))
    (text : Option String) : ℕ :=
  match text with
  | none => 0
  | some s =>
    if s = "" then 0
    else
      match encoder with
      | some enc => (enc s).length
      | none => s.length / 4

/-- The text s concatenated with itself n additional times: the
repeated superset of the claim about monotonicity. -/
def repeatConcat (s : String) : ℕ → String
  | 0 => s
  | n + 1 => repeatConcat s n ++ s

theorem repeatConcat_length (s : String) (n : ℕ) :
    (repeatConcat s n).length = (n + 1) * s.length := by
  induction n with
  | zero => simp [repeatConcat]
  | succ n ih =>
    rw [repeatConcat, String.length_append, ih]
    ring

/-- Embedding of MODEL_CONTEXT_WINDOWS (tokenizer.py lines 64-89) as a
key-window list in the insertion order of the Python dict literal. -/
def MODEL_CONTEXT_WINDOWS : List (String × ℕ) :=
  [("claude-4.5-opus", 176000), ("claude-4.5-sonnet", 176000),
   ("claude-4-opus", 176000), ("claude-4-sonnet", 176000),
   ("claude-3.5-sonnet", 176000), ("claude-3-opus", 176000),
   ("claude-3-sonnet", 176000), ("claude-3-haiku", 176000),
   ("gpt-4o", 128000), ("gpt-4-turbo", 128000), ("gpt-4", 8192),
   ("gpt-3.5-turbo", 16385),
   ("gemini-2.5-pro", 1000000), ("gemini-2.5-flash", 1000000),
   ("gemini-1.5-pro", 2000000), ("gemini-1.5-flash", 1000000),
   ("default", 176000)]

/-- Python str.lower, modelled characterwise; adequate for the ASCII
model identifiers the registry deals in. -/
def lowerStr (s : String) : String :=
  String.mk (s.data.map Char.toLower)

/-- Contiguous-substring test on character lists, the semantics of the
Python membership operator needle in hay. -/
def containsSub : List Char → List Char → Bool
  | [], needle => needle.isPrefixOf []
  | c :: t, needle => needle.isPrefixOf (c :: t) || containsSub t needle

/-- Python needle in hay for strings. -/
def strIn (needle hay : String) : Bool :=
  containsSub hay.data needle.data

/-- The predicate of the partial-match loop in get_context_window:
keys other than the default entry that occur inside the lowered model
name (tokenizer.py lines 112-114). -/
def tableKeyMatches (ml : String) (kv : String × ℕ) : Bool :=
  kv.1 != "default" && strIn kv.1 ml

/-- Embedding of get_context_window (tokenizer.py lines 92-116): falsy
model names resolve to the default entry; otherwise lowercase the name,
try an exact table lookup, then the first table key in insertion order
(skipping the default entry) that occurs as a substring of the lowered
name, then the default entry. -/
def get_context_window (model : Option String) : ℕ :=
  let dflt := (MODEL_CONTEXT_WINDOWS.lookup "default").getD 0
  match model with
  | none => dflt
  | some m =>
    if m = "" then dflt
    else
      let ml := lowerStr m
      match MODEL_CONTEXT_WINDOWS.lookup ml with
      | some w => w
      | none =>
        match MODEL_CONTEXT_WINDOWS.find? (tableKeyMatches ml) with
        | some kv => kv.2
        | none => dflt

/-- Round-half-to-even of a rational to an integer, the tie behaviour
of the Python builtin round. -/
def roundHalfEven (q : ℚ) : ℤ :=
  let f := ⌊q⌋
  let r := q - (f : ℚ)
  if r < 1 / 2 then f
  else if 1 / 2 < r then f + 1
  else if f % 2 = 0 then f else f + 1

/-- Python round(x, 1): round to one decimal place. -/
def round1 (q : ℚ) : ℚ :=
  (roundHalfEven (q * 10) : ℚ) / 10

/-- Embedding of calculate_context_percentage (tokenizer.py lines
119-134): zero for a non-positive window, otherwise the used ratio
times 100 capped at 100. -/
def calculate_context_percentage (tokens : ℤ) (context_window : ℤ) : ℚ :=
  if context_window ≤ 0 then 0
  else min (((tokens : ℚ) / (context_window : ℚ)) * 100) 100

/-- Result shape of calculate_context_metrics. -/
structure ContextMetrics where
  used_percentage : ℚ
  remaining_percentage : ℚ
  context_window_size : ℕ
  estimated_tokens : ℤ
deriving DecidableEq, Repr

/-- Embedding of calculate_context_metrics (tokenizer.py lines
137-156): the unrounded percentage is computed once and each output
percentage is rounded to one decimal independently at the end. -/
def calculate_context_metrics (tokens : ℤ) (model : Option String) :
    ContextMetrics :=
  let w := get_context_window model
  let used := calculate_context_percentage tokens (w : ℤ)
  { used_percentage := round1 used,
    remaining_percentage := round1 (100 - used),
    context_window_size := w,
    estimated_tokens := tokens }

theorem containsSub_of_prefix (hay n1 n2 : List Char)
    (hpre : n2.isPrefixOf n1 = true) (h : containsSub hay n1 = true) :
    containsSub hay n2 = true := by
  induction hay with
  | nil =>
    simp only [containsSub] at h ⊢
    exact List.isPrefixOf_iff_prefix.mpr
      ((List.isPrefixOf_iff_prefix.mp hpre).trans
        (List.isPrefixOf_iff_prefix.mp h))
  | cons c t ih =>
    simp only [containsSub, Bool.or_eq_true] at h ⊢
    rcases h with h | h
    · exact Or.inl (List.isPrefixOf_iff_prefix.mpr
        ((List.isPrefixOf_iff_prefix.mp hpre).trans
          (List.isPrefixOf_iff_prefix.mp h)))
    · exact Or.inr (ih h)

theorem lookup_mem {l : List (String × ℕ)} {s : String} {w : ℕ}
    (h : l.lookup s = some w) : (s, w) ∈ l := by
  induction l with
  | nil => simp [List.lookup] at h
  | cons hd tl ih =>
    obtain ⟨k, v⟩ := hd
    simp only [List.lookup] at h
    by_cases hk : (s == k) = true
    · rw [hk] at h
      obtain rfl : v = w := Option.some.inj h
      obtain rfl : s = k := by simpa using hk
      exact List.mem_cons_self _ _
    · rw [Bool.not_eq_true] at hk
      rw [hk] at h
      exact List.mem_cons_of_mem _ (ih h)

theorem find?_first {α : Type} (p : α → Bool) :
    ∀ (l1 l2 : List α) (a : α), (∀ x ∈ l1, p x = false) → p a = true →
      (l1 ++ a :: l2).find? p = some a := by
  intro l1
  induction l1 with
  | nil =>
    intro l2 a _ ha
    simp [List.find?, ha]
  | cons b t ih =>
    intro l2 a hall ha
    have hb : p b = false := hall b (List.mem_cons_self _ _)
    simp only [List.cons_append, List.find?, hb]
    exact ih l2 a (fun x hx => hall x (List.mem_cons_of_mem _ hx)) ha

theorem find?_in_prefix {α : Type} (p : α → Bool) :
    ∀ (l1 l2 : List α) (a : α), p a = true →
      ∃ x ∈ l1 ++ [a], (l1 ++ a :: l2).find? p = some x := by
  intro l1
  induction l1 with
  | nil =>
    intro l2 a ha
    exact ⟨a, by simp, by simp [List.find?, ha]⟩
  | cons b t ih =>
    intro l2 a ha
    cases hb : p b with
    | true =>
      exact ⟨b, by simp, by simp [List.find?, hb]⟩
    | false =>
      obtain ⟨x, hx, hfind⟩ := ih l2 a ha
      refine ⟨x, ?_, ?_⟩
      · exact List.mem_cons_of_mem _ hx
      · simp only [List.cons_append, List.find?, hb]
        exact hfind

/-- C7 (amended): estimate_tokens maps absent and empty text to 0 on
every path; on the character-density fallback path the estimate of a
repeated superset strictly exceeds the estimate of the base text
whenever the base text has at least two characters (a one-character
text and its doubling both floor to zero; the encoder path belongs to
the external tiktoken library and is out of reach of the sources). -/
theorem C7_estimate_tokens (encoder : Option (String → List ℕ))
    (s : String) (n : ℕ) (hs : 2 ≤ s.length) (hn : 1 ≤ n) :
    estimate_tokens encoder none = 0 ∧
    estimate_tokens encoder (some "") = 0 ∧
    estimate_tokens none (some (repeatConcat s n)) >
      estimate_tokens none (some s) := by
  have hne : s ≠ "" := by
    intro h
    rw [h] at hs
    simp at hs
  have hlen : (repeatConcat s n).length = (n + 1) * s.length :=
    repeatConcat_length s n
  have hge : 2 * s.length ≤ (n + 1) * s.length :=
    Nat.mul_le_mul_right _ (by omega)
  have hne2 : repeatConcat s n ≠ "" := by
    intro h
    rw [h] at hlen
    simp only [String.length_empty] at hlen
    omega
  refine ⟨rfl, rfl, ?_⟩
  simp only [estimate_tokens, if_neg hne, if_neg hne2]
  rw [hlen]
  have h3 : 2 * s.length / 4 ≤ (n + 1) * s.length / 4 :=
    Nat.div_le_div_right hge
  have h4 : s.length / 4 < 2 * s.length / 4 := by omega
  omega

theorem C7_estimate_tokens_witness :
    2 ≤ ("abcd" : String).length ∧ 1 ≤ 1 ∧
    (estimate_tokens none none = 0 ∧
     estimate_tokens none (some "") = 0 ∧
     estimate_tokens none (some (repeatConcat "abcd" 1)) >
       estimate_tokens none (some "abcd")) :=
  ⟨by decide, le_refl 1, C7_estimate_tokens none "abcd" 1 (by decide) (le_refl 1)⟩

/-- C7 counterexample: on the fallback path a one-character text and
its doubling both estimate to 0 tokens, so the strict inequality the
claim asserts for every repeated superset fails. -/
theorem C7_counterexample :
    ¬ (estimate_tokens none (some (repeatConcat "a" 1)) >
        estimate_tokens none (some "a")) := by
  decide

/-- C8: get_context_window resolves an exact lowercased table name and
any name containing it to the same window, and empty, absent and
wholly unknown names to the default entry 176000. -/
theorem C8_window_resolution :
    get_context_window (some "claude-3.5-sonnet") = 176000 ∧
    get_context_window (some "fine-tuned-claude-3.5-sonnet-v2") =
      get_context_window (some "claude-3.5-sonnet") ∧
    get_context_window (some "") = 176000 ∧
    get_context_window none = 176000 ∧
    get_context_window (some "totally-unknown-model") = 176000 :=
  ⟨by decide, by decide, by decide, by decide, by decide⟩

/-- The eight claude entries preceding the gpt-4o entry in the table. -/
def claudePrefix : List (String × ℕ) :=
  [("claude-4.5-opus", 176000), ("claude-4.5-sonnet", 176000),
   ("claude-4-opus", 176000), ("claude-4-sonnet", 176000),
   ("claude-3.5-sonnet", 176000), ("claude-3-opus", 176000),
   ("claude-3-sonnet", 176000), ("claude-3-haiku", 176000)]

/-- The table entries after the gpt-4o entry. -/
def tailAfterGpt4o : List (String × ℕ) :=
  [("gpt-4-turbo", 128000), ("gpt-4", 8192), ("gpt-3.5-turbo", 16385),
   ("gemini-2.5-pro", 1000000), ("gemini-2.5-flash", 1000000),
   ("gemini-1.5-pro", 2000000), ("gemini-1.5-flash", 1000000),
   ("default", 176000)]

theorem table_split :
    MODEL_CONTEXT_WINDOWS = claudePrefix ++ ("gpt-4o", 128000) :: tailAfterGpt4o :=
  rfl

theorem get_context_window_exact (m : String) (hm : m ≠ "") (w : ℕ)
    (h : MODEL_CONTEXT_WINDOWS.lookup (lowerStr m) = some w) :
    get_context_window (some m) = w := by
  simp only [get_context_window, if_neg hm, h]

theorem get_context_window_substring (m : String) (hm : m ≠ "")
    (h : MODEL_CONTEXT_WINDOWS.lookup (lowerStr m) = none) (kv : String × ℕ)
    (hf : MODEL_CONTEXT_WINDOWS.find? (tableKeyMatches (lowerStr m)) = some kv) :
    get_context_window (some m) = kv.2 := by
  simp only [get_context_window, if_neg hm, h, hf]

/-- C10 (amended): when the lowered name has no exact table match, the
first key in table insertion order that occurs inside the name
determines the window; every name containing gpt-4o also contains
gpt-4; and a name containing gpt-4o never resolves to the gpt-4 window
8192 - it resolves to the gpt-4o window 128000 unless the whole name is
an exact table key or an earlier claude key also occurs inside it. -/
theorem C10_substring_order (m : String)
    (l1 l2 : List (String × ℕ)) (kv : String × ℕ)
    (hsplit : MODEL_CONTEXT_WINDOWS = l1 ++ kv :: l2)
    (hm : m ≠ "")
    (hexact : MODEL_CONTEXT_WINDOWS.lookup (lowerStr m) = none)
    (hnone : ∀ x ∈ l1, tableKeyMatches (lowerStr m) x = false)
    (hmatch : tableKeyMatches (lowerStr m) kv = true) :
    get_context_window (some m) = kv.2 ∧
    (∀ s : String, strIn "gpt-4o" s = true → strIn "gpt-4" s = true) ∧
    (∀ name : String, strIn "gpt-4o" (lowerStr name) = true →
      get_context_window (some name) ≠ 8192) := by
  refine ⟨?_, ?_, ?_⟩
  · have hf : MODEL_CONTEXT_WINDOWS.find? (tableKeyMatches (lowerStr m)) = some kv := by
      rw [hsplit]
      exact find?_first _ l1 l2 kv hnone hmatch
    exact get_context_window_substring m hm hexact kv hf
  · intro s hsub
    exact containsSub_of_prefix s.data _ _ (by decide) hsub
  · intro name hsub
    by_cases hname : name = ""
    · rw [hname] at hsub
      exact absurd hsub (by decide)
    · cases hx : MODEL_CONTEXT_WINDOWS.lookup (lowerStr name) with
      | some w =>
        rw [get_context_window_exact name hname w hx]
        intro hc
        rw [hc] at hx
        have hmem := lookup_mem hx
        have hgpt : lowerStr name = "gpt-4" := by
          simpa [Prod.mk.injEq, MODEL_CONTEXT_WINDOWS] using hmem
        rw [hgpt] at hsub
        exact absurd hsub (by decide)
      | none =>
        have hp : tableKeyMatches (lowerStr name) ("gpt-4o", 128000) = true := by
          simp only [tableKeyMatches, strIn] at hsub ⊢
          rw [hsub]
          decide
        obtain ⟨x, hxmem, hfind⟩ :=
          find?_in_prefix (tableKeyMatches (lowerStr name)) claudePrefix
            tailAfterGpt4o ("gpt-4o", 128000) hp
        have hfind2 : MODEL_CONTEXT_WINDOWS.find? (tableKeyMatches (lowerStr name)) = some x := by
          rw [table_split]
          exact hfind
        rw [get_context_window_substring name hname hx x hfind2]
        have hcases := hxmem
        simp only [claudePrefix, List.mem_append, List.mem_cons,
          List.mem_singleton, List.not_mem_nil, or_false] at hcases
        rcases hcases with (rfl | rfl | rfl | rfl | rfl | rfl | rfl | rfl) | rfl
        all_goals decide

theorem C10_substring_order_witness :
    (MODEL_CONTEXT_WINDOWS = claudePrefix ++ ("gpt-4o", 128000) :: tailAfterGpt4o ∧
     ("fine-tuned-gpt-4o-v2" : String) ≠ "" ∧
     MODEL_CONTEXT_WINDOWS.lookup (lowerStr "fine-tuned-gpt-4o-v2") = none ∧
     (∀ x ∈ claudePrefix, tableKeyMatches (lowerStr "fine-tuned-gpt-4o-v2") x = false) ∧
     tableKeyMatches (lowerStr "fine-tuned-gpt-4o-v2") ("gpt-4o", 128000) = true) ∧
    (get_context_window (some "fine-tuned-gpt-4o-v2") = 128000 ∧
     strIn "gpt-4" "xx-gpt-4o-xx" = true ∧
     get_context_window (some "claude-3-opus-gpt-4o") ≠ 8192) := by
  have h := C10_substring_order "fine-tuned-gpt-4o-v2" claudePrefix
    tailAfterGpt4o ("gpt-4o", 128000) rfl (by decide) (by decide)
    (by decide) (by decide)
  exact ⟨⟨rfl, by decide, by decide, by decide, by decide⟩,
    h.1, h.2.1 "xx-gpt-4o-xx" (by decide), h.2.2 "claude-3-opus-gpt-4o" (by decide)⟩

/-- C10 counterexample: claude-3-opus-gpt-4o contains gpt-4o, but the
earlier table key claude-3-opus matches first, so the resolved window
is 176000 and not the gpt-4o window 128000 the claim asserts. -/
theorem C10_counterexample :
    strIn "gpt-4o" (lowerStr "claude-3-opus-gpt-4o") = true ∧
    get_context_window (some "claude-3-opus-gpt-4o") ≠ 128000 :=
  ⟨by decide, by decide⟩

theorem roundHalfEven_intCast (z : ℤ) : roundHalfEven (z : ℚ) = z := by
  rw [roundHalfEven]
  norm_num [Int.floor_intCast]

/-- C9: for a positive window the used percentage is the capped ratio
min(100 t / w, 100), for a non-positive window it is 0; the metrics
object rounds the used and remaining percentages to one decimal only at
output, from the same unrounded value; the concrete examples of the
claim hold after rounding. -/
theorem C9_context_percentage (t w tm : ℤ) (model : Option String) :
    (0 < w → calculate_context_percentage t w =
        min (100 * (t : ℚ) / (w : ℚ)) 100) ∧
    (w ≤ 0 → calculate_context_percentage t w = 0) ∧
    ((calculate_context_metrics tm model).used_percentage =
        round1 (calculate_context_percentage tm (get_context_window model : ℤ)) ∧
     (calculate_context_metrics tm model).remaining_percentage =
        round1 (100 - calculate_context_percentage tm (get_context_window model : ℤ))) ∧
    round1 (calculate_context_percentage 50000 200000) = 25 ∧
    round1 (100 - calculate_context_percentage 50000 200000) = 75 ∧
    round1 (calculate_context_percentage 250000 200000) = 100 ∧
    round1 (calculate_context_percentage 50000 0) = 0 := by
  have h25 : calculate_context_percentage 50000 200000 = 25 := by
    rw [calculate_context_percentage, if_neg (by norm_num)]
    rw [min_eq_left (by norm_num)]
    norm_num
  have h125 : calculate_context_percentage 250000 200000 = 100 := by
    rw [calculate_context_percentage, if_neg (by norm_num)]
    rw [min_eq_right (by norm_num)]
  have h0 : calculate_context_percentage 50000 0 = 0 := by
    rw [calculate_context_percentage, if_pos (by norm_num)]
  have hr25 : round1 (25 : ℚ) = 25 := by
    rw [round1]
    have h : ((25 : ℚ) * 10) = ((250 : ℤ) : ℚ) := by norm_num
    rw [h, roundHalfEven_intCast]
    norm_num
  have hr75 : round1 (75 : ℚ) = 75 := by
    rw [round1]
    have h : ((75 : ℚ) * 10) = ((750 : ℤ) : ℚ) := by norm_num
    rw [h, roundHalfEven_intCast]
    norm_num
  have hr100 : round1 (100 : ℚ) = 100 := by
    rw [round1]
    have h : ((100 : ℚ) * 10) = ((1000 : ℤ) : ℚ) := by norm_num
    rw [h, roundHalfEven_intCast]
    norm_num
  have hr0 : round1 (0 : ℚ) = 0 := by
    rw [round1]
    have h : ((0 : ℚ) * 10) = ((0 : ℤ) : ℚ) := by norm_num
    rw [h, roundHalfEven_intCast]
    norm_num
  refine ⟨?_, ?_, ⟨rfl, rfl⟩, ?_, ?_, ?_, ?_⟩
  · intro hw
    rw [calculate_context_percentage, if_neg (not_le.mpr hw)]
    congr 1
    ring
  · intro hw
    rw [calculate_context_percentage, if_pos hw]
  · rw [h25, hr25]
  · rw [h25]
    norm_num
    rw [hr75]
  · rw [h125, hr100]
  · rw [h0, hr0]

theorem C9_context_percentage_witness :
    ((0 : ℤ) < 200000 ∧ calculate_context_percentage 50000 200000 =
        min (100 * (50000 : ℚ) / (200000 : ℚ)) 100) ∧
    ((-5 : ℤ) ≤ 0 ∧ calculate_context_percentage 50000 (-5) = 0) :=
  ⟨⟨by decide, (C9_context_percentage 50000 200000 0 none).1 (by decide)⟩,
   ⟨by decide, (C9_context_percentage 50000 (-5) 0 none).2.1 (by decide)⟩⟩

end Tokenizer

namespace ContextParser

open Jacques.Tokenizer (containsSub)

/-- Python re word class for the ASCII inputs at hand: letters, digits
and underscore. -/
def isWordChar (c : Char) : Bool :=
  c.isAlphanum || c = '_'

/-- Python re whitespace class. -/
def isSpaceChar (c : Char) : Bool :=
  c = ' ' || c = '\t' || c = '\n' || c = '\r' || c = '\x0b' || c = '\x0c'

/-- The class of the model-name group in the header pattern. -/
def isModelChar (c : Char) : Bool :=
  isWordChar c || c = '-'

/-- The class of numeric tokens with an optional decimal dot. -/
def isNumChar (c : Char) : Bool :=
  c.isDigit || c = '.'

/-- The class of the category-label group: word characters and
whitespace. -/
def isLabelChar (c : Char) : Bool :=
  isWordChar c || isSpaceChar c

/-- The class of the item-name group: word characters, underscore and
dash. -/
def isItemNameChar (c : Char) : Bool :=
  isWordChar c || c = '-'

/-- The four glyph markers opening a category line. -/
def isGlyph (c : Char) : Bool :=
  c = '⛁' || c = '⛀' || c = '⛶' || c = '⛝'

/-- The three tree markers opening an item line. -/
def isTreeMarker (c : Char) : Bool :=
  c = '└' || c = '├' || c = '─'

def digitsToNat (ds : List Char) : ℕ :=
  ds.foldl (fun acc c => acc * 10 + (c.toNat - 48)) 0

/-- Python float() on the digits-and-dots strings captured by the
numeric groups, as the exact decimal rational int.frac =
(int * 10 ^ k + frac) / 10 ^ k, built with mkRat so that it evaluates
by kernel reduction. Faithful for the well-formed single-dot numerals
the patterns are aimed at; a Python float would be the nearest binary
double, and a numeral with several dots would raise upstream. -/
def parseRat (cs : List Char) : ℚ :=
  let intPart := cs.takeWhile (fun c => c != '.')
  let rest := cs.dropWhile (fun c => c != '.')
  match rest with
  | [] => mkRat (digitsToNat intPart) 1
  | _ :: frac =>
    mkRat (digitsToNat intPart * 10 ^ frac.length + digitsToNat frac)
      (10 ^ frac.length)

/-- Python int() truncation of a float toward zero. -/
def truncQ (q : ℚ) : ℤ :=
  if q < 0 then -((-q).floor) else q.floor

/-- Rational multiplication spelled through mkRat; the ordinary
multiplication on ℚ is irreducible to the kernel, and the lemma below
shows the two agree, so the embedding loses nothing by using this
form. -/
def ratMul (a b : ℚ) : ℚ :=
  mkRat (a.num * b.num) (a.den * b.den)

theorem ratMul_eq (a b : ℚ) : ratMul a b = a * b := by
  rw [ratMul, Rat.mkRat_eq_div]
  push_cast
  conv_rhs => rw [← Rat.num_div_den a, ← Rat.num_div_den b]
  rw [div_mul_div_comm]

/-- Consume an exact literal, returning the remainder. -/
def dropLit (lit cs : List Char) : Option (List Char) :=
  if lit.isPrefixOf cs then some (cs.drop lit.length) else none

/-- Embedding of the ContextItem dataclass (context_parser.py lines
15-19). -/
structure ContextItem where
  name : List Char
  tokens : ℕ
deriving DecidableEq, Repr

/-- Embedding of the ContextCategory dataclass (context_parser.py
lines 22-28). -/
structure ContextCategory where
  name : List Char
  tokens : ℤ
  percentage : ℚ
  items : List ContextItem
deriving DecidableEq, Repr

/-- Embedding of the ContextBreakdown dataclass (context_parser.py
lines 31-51); the raw_output debug field, a copy of the input, is
omitted. -/
structure ContextBreakdown where
  model : List Char
  total_tokens : ℤ
  max_tokens : ℤ
  used_percentage : ℚ
  system_prompt : Option ContextCategory
  system_tools : Option ContextCategory
  mcp_tools : Option ContextCategory
  custom_agents : Option ContextCategory
  memory_files : Option ContextCategory
  skills : Option ContextCategory
  messages : Option ContextCategory
  free_space : Option ContextCategory
  autocompact_buffer : Option ContextCategory
deriving DecidableEq, Repr

def emptyBreakdown : ContextBreakdown :=
  { model := [], total_tokens := 0, max_tokens := 0, used_percentage := 0,
    system_prompt := none, system_tools := none, mcp_tools := none,
    custom_agents := none, memory_files := none, skills := none,
    messages := none, free_space := none, autocompact_buffer := none }

/-- Captured groups and consumed length of one header match. -/
structure HeaderMatch where
  model : List Char
  totalStr : List Char
  maxStr : List Char
  pctStr : List Char
  length : ℕ
deriving DecidableEq, Repr

/-- Matcher for the header pattern (context_parser.py lines 77-79)
anchored at the head of cs. The greedy character classes at every
quantifier boundary are disjoint from what follows, so this
backtracking-free scan agrees with the Python regex; the one local
retry the regex performs, a dot not followed by digits in the
percentage group, is spelled out below. -/
def matchHeaderAt (cs : List Char) : Option HeaderMatch :=
  let model := cs.takeWhile isModelChar
  let r1 := cs.dropWhile isModelChar
  if model = [] then none
  else
    match r1.dropWhile isSpaceChar with
    | '·' :: r3 =>
      let r4 := r3.dropWhile isSpaceChar
      let totalStr := r4.takeWhile isNumChar
      let r5 := r4.dropWhile isNumChar
      if totalStr = [] then none
      else
        let r6 := match r5 with
          | 'k' :: rr => rr
          | _ => r5
        match r6.dropWhile isSpaceChar with
        | '/' :: r8 =>
          let r9 := r8.dropWhile isSpaceChar
          let maxStr := r9.takeWhile isNumChar
          let r10 := r9.dropWhile isNumChar
          if maxStr = [] then none
          else
            let r11 := match r10 with
              | 'k' :: rr => rr
              | _ => r10
            match dropLit ("tokens".data) (r11.dropWhile isSpaceChar) with
            | none => none
            | some r13 =>
              match r13.dropWhile isSpaceChar with
              | '(' :: r15 =>
                let d1 := r15.takeWhile Char.isDigit
                let r16 := r15.dropWhile Char.isDigit
                if d1 = [] then none
                else
                  let pr : List Char × List Char :=
                    match r16 with
                    | '.' :: rr =>
                      let d2 := rr.takeWhile Char.isDigit
                      if d2 = [] then (d1, r16)
                      else (d1 ++ '.' :: d2, rr.dropWhile Char.isDigit)
                    | _ => (d1, r16)
                  match pr.2.dropWhile isSpaceChar with
                  | '%' :: ')' :: r20 =>
                    some { model := model, totalStr := totalStr,
                           maxStr := maxStr, pctStr := pr.1,
                           length := cs.length - r20.length }
                  | _ => none
              | _ => none
        | _ => none
    | _ => none

/-- Leftmost search for the header pattern, as re.search: try each
start position in order. Returns the match and its start index. -/
def searchHeaderAux (hm : List Char → Option HeaderMatch) :
    List Char → ℕ → Option (HeaderMatch × ℕ)
  | [], _ => none
  | c :: t, i =>
    match hm (c :: t) with
    | some m => some (m, i)
    | none => searchHeaderAux hm t (i + 1)

def searchHeader (cs : List Char) : Option (HeaderMatch × ℕ) :=
  searchHeaderAux matchHeaderAt cs 0

/-- Captured groups and consumed length of one category-line match. -/
structure CategoryMatch where
  label : List Char
  numStr : List Char
  hasK : Bool
  pctStr : List Char
  length : ℕ
deriving DecidableEq, Repr

/-- Matcher for the category pattern (context_parser.py lines 92-94)
anchored at the head of cs. The label class overlaps the whitespace
class, so when no word character follows the mandatory whitespace the
regex backtracks exactly one space out of the whitespace run into the
label group; that single case is spelled out below, everything else is
the disjointness-driven greedy scan. -/
def matchCategoryAt (cs : List Char) : Option CategoryMatch :=
  match cs with
  | [] => none
  | c :: r1 =>
    if isGlyph c then
      let ws := r1.takeWhile isSpaceChar
      let r2 := r1.dropWhile isSpaceChar
      if ws = [] then none
      else
        let body := r2.takeWhile isLabelChar
        let r3 := r2.dropWhile isLabelChar
        let lp : Option (List Char × List Char) :=
          if body = [] then
            if 2 ≤ ws.length then some ([' '], r2) else none
          else some (body, r3)
        match lp with
        | none => none
        | some (label, rest) =>
          match rest with
          | ':' :: r4 =>
            let r5 := r4.dropWhile isSpaceChar
            let numStr := r5.takeWhile isNumChar
            let r6 := r5.dropWhile isNumChar
            if numStr = [] then none
            else
              let kp : Bool × List Char :=
                match r6 with
                | 'k' :: rr => (true, rr)
                | _ => (false, r6)
              match dropLit ("tokens".data) (kp.2.dropWhile isSpaceChar) with
              | none => none
              | some r8 =>
                match r8.dropWhile isSpaceChar with
                | '(' :: r10 =>
                  let pctStr := r10.takeWhile isNumChar
                  let r11 := r10.dropWhile isNumChar
                  if pctStr = [] then none
                  else
                    match r11.dropWhile isSpaceChar with
                    | '%' :: ')' :: r13 =>
                      some { label := label, numStr := numStr,
                             hasK := kp.1, pctStr := pctStr,
                             length := cs.length - r13.length }
                    | _ => none
                | _ => none
          | _ => none
    else none

/-- Non-overlapping scan of category matches, as re.finditer: advance
one position on failure, jump past the match on success. The fuel is
the input length; every match consumes at least its leading glyph. -/
def findCategoriesAux : ℕ → List Char → List CategoryMatch
  | 0, _ => []
  | _ + 1, [] => []
  | fuel + 1, c :: t =>
    match matchCategoryAt (c :: t) with
    | some m => m :: findCategoriesAux fuel ((c :: t).drop m.length)
    | none => findCategoriesAux fuel t

def findCategories (cs : List Char) : List CategoryMatch :=
  findCategoriesAux cs.length cs

/-- Matcher for the item pattern (context_parser.py line 131) anchored
at the head of cs; all quantifier boundaries are disjoint, so the
greedy scan agrees with the regex. Returns the item and the consumed
length. -/
def matchItemAt (cs : List Char) : Option (ContextItem × ℕ) :=
  match cs with
  | [] => none
  | c :: r1 =>
    if isTreeMarker c then
      let r2 := r1.dropWhile isSpaceChar
      let nm := r2.takeWhile isItemNameChar
      let r3 := r2.dropWhile isItemNameChar
      if nm = [] then none
      else
        match r3 with
        | ':' :: r4 =>
          let r5 := r4.dropWhile isSpaceChar
          let ds := r5.takeWhile Char.isDigit
          let r6 := r5.dropWhile Char.isDigit
          if ds = [] then none
          else
            match dropLit ("tokens".data) (r6.dropWhile isSpaceChar) with
            | none => none
            | some r8 =>
              some ({ name := nm, tokens := digitsToNat ds },
                cs.length - r8.length)
        | _ => none
    else none

/-- Non-overlapping scan of item matches, as re.finditer. -/
def findItemsAux : ℕ → List Char → List ContextItem
  | 0, _ => []
  | _ + 1, [] => []
  | fuel + 1, c :: t =>
    match matchItemAt (c :: t) with
    | some (it, len) => it :: findItemsAux fuel ((c :: t).drop len)
    | none => findItemsAux fuel t

def scanItems (cs : List Char) : List ContextItem :=
  findItemsAux cs.length cs

/-- Python str.lower on a character list. -/
def lowerCL (cs : List Char) : List Char :=
  cs.map Char.toLower

/-- Python str.strip: remove leading and trailing whitespace. -/
def stripCL (cs : List Char) : List Char :=
  ((cs.dropWhile isSpaceChar).reverse.dropWhile isSpaceChar).reverse

/-- Python str.find(needle, start): index of the first occurrence of
needle at or after start, none standing for the -1 sentinel. -/
def findFromAux (needle : List Char) : List Char → ℕ → Option ℕ
  | [], i => if needle = [] then some i else none
  | c :: t, i =>
    if needle.isPrefixOf (c :: t) then some i
    else findFromAux needle t (i + 1)

def strFind (cs needle : List Char) (start : ℕ) : Option ℕ :=
  match findFromAux needle (cs.drop start) 0 with
  | some j => some (start + j)
  | none => none

/-- The header assignment (context_parser.py lines 81-88). Both sides
of the thousands-suffix conditional in the source multiply by 1000 -
the conditional is dead - and max_tokens is multiplied by 1000
unconditionally; the embedding reproduces this verbatim. -/
def headerPhase (output : List Char) (b : ContextBreakdown) :
    ContextBreakdown :=
  match searchHeader output with
  | none => b
  | some (hm, i) =>
    let slice := (output.drop i).take hm.length
    { b with
      model := hm.model,
      total_tokens :=
        if slice.contains 'k' then truncQ (ratMul (parseRat hm.totalStr) 1000)
        else truncQ (ratMul (parseRat hm.totalStr) 1000),
      max_tokens := truncQ (ratMul (parseRat hm.maxStr) 1000),
      used_percentage := parseRat hm.pctStr }

/-- Classification of one category match into the breakdown slot whose
substring test fires first (context_parser.py lines 96-127);
unrecognized labels are dropped. -/
def applyCategory (b : ContextBreakdown) (m : CategoryMatch) :
    ContextBreakdown :=
  let nameLower := lowerCL (stripCL m.label)
  let tokens : ℤ :=
    if m.hasK then truncQ (ratMul (parseRat m.numStr) 1000)
    else truncQ (parseRat m.numStr)
  let category : ContextCategory :=
    { name := stripCL m.label, tokens := tokens,
      percentage := parseRat m.pctStr, items := [] }
  if containsSub nameLower ("system prompt".data) then
    { b with system_prompt := some category }
  else if containsSub nameLower ("system tools".data) then
    { b with system_tools := some category }
  else if containsSub nameLower ("mcp tools".data) then
    { b with mcp_tools := some category }
  else if containsSub nameLower ("custom agents".data) ||
          containsSub nameLower ("agents".data) then
    { b with custom_agents := some category }
  else if containsSub nameLower ("memory".data) then
    { b with memory_files := some category }
  else if containsSub nameLower ("skills".data) then
    { b with skills := some category }
  else if containsSub nameLower ("messages".data) then
    { b with messages := some category }
  else if containsSub nameLower ("free".data) then
    { b with free_space := some category }
  else if containsSub nameLower ("autocompact".data) ||
          containsSub nameLower ("buffer".data) then
    { b with autocompact_buffer := some category }
  else b

def categoryPhase (output : List Char) (b : ContextBreakdown) :
    ContextBreakdown :=
  (findCategories output).foldl applyCategory b

/-- The MCP tools section key. -/
def mcpL : List Char := "MCP tools".data

/-- The Custom agents section key. -/
def agentsL : List Char := "Custom agents".data

/-- The Memory files section key. -/
def memoryL : List Char := "Memory files".data

/-- The Skills section key. -/
def skillsL : List Char := "Skills".data

/-- The keys of the sections dictionary, in insertion order
(context_parser.py lines 134-139). -/
def sectionNames : List (List Char) :=
  [mcpL, agentsL, memoryL, skillsL]

/-- Section start lookup (context_parser.py lines 145-150): the label
followed by a middle dot first, the bare label as fallback. -/
def sectionStart (output : List Char) (name : List Char) : Option ℕ :=
  match strFind output (name ++ (" ·".data)) 0 with
  | some i => some i
  | none => strFind output name 0

/-- Section end bound (context_parser.py lines 152-158): the earliest
occurrence of any other section key after the section start plus the
key length, or the end of input. -/
def nextSection (output : List Char) (name : List Char) (st : ℕ) : ℕ :=
  sectionNames.foldl
    (fun acc other =>
      if other ≠ name then
        match strFind output other (st + name.length) with
        | some p => if p < acc then p else acc
        | none => acc
      else acc)
    output.length

/-- Items of one section (context_parser.py lines 141-168): slice the
output between the section start and its end bound and scan for item
matches; a missing section contributes nothing. -/
def sectionItems (output : List Char) (name : List Char) :
    List ContextItem :=
  match sectionStart output name with
  | none => []
  | some st =>
    scanItems ((output.take (nextSection output name st)).drop st)

def addItems (output : List Char) (name : List Char)
    (c : Option ContextCategory) : Option ContextCategory :=
  match c with
  | none => none
  | some cat => some { cat with items := cat.items ++ sectionItems output name }

def itemPhase (output : List Char) (b : ContextBreakdown) :
    ContextBreakdown :=
  { b with
    mcp_tools := addItems output mcpL b.mcp_tools,
    custom_agents := addItems output agentsL b.custom_agents,
    memory_files := addItems output memoryL b.memory_files,
    skills := addItems output skillsL b.skills }

/-- Embedding of parse_context_output (context_parser.py lines
54-170): reject inputs without the marker phrase, then run the header,
category and item phases over a fresh breakdown. -/
def parse_context_output (output : List Char) : Option ContextBreakdown :=
  if containsSub output ("Context Usage".data) then
    some (itemPhase output (categoryPhase output (headerPhase output emptyBreakdown)))
  else none

/-- A report whose header carries the thousands-suffix on both values
and whose category line carries none. -/
def sampleWithSuffix : List Char :=
  ("Context Usage\nclaude-sonnet-4-5 · 48k/200k tokens (24%)\n⛁ Memory files: 843 tokens (0.4%)\n").data

/-- A report whose header writes both values without the suffix. -/
def sampleNoSuffix : List Char :=
  ("Context Usage\nclaude-sonnet-4-5 · 48000/200000 tokens (24%)\n").data

/-- C3 (code bug): header values with the thousands-suffix and
category values without one parse as the claim states (48000, 200000
and 843), but a header value written without the suffix is still
multiplied by 1000, because the suffix conditional of the source
multiplies in both branches: the no-suffix header yields 48000000 and
200000000 instead of the literal 48000 and 200000. -/
theorem C3_thousands_suffix :
    ((parse_context_output sampleWithSuffix).map
        (fun b => (b.total_tokens, b.max_tokens)) = some (48000, 200000)) ∧
    ((parse_context_output sampleWithSuffix).bind
        (fun b => b.memory_files.map (fun c => c.tokens)) = some 843) ∧
    ((parse_context_output sampleNoSuffix).map
        (fun b => (b.total_tokens, b.max_tokens)) = some (48000000, 200000000)) := by
  refine ⟨?_, ?_, ?_⟩ <;> decide

theorem addItems_eq_map (output name : List Char)
    (c : Option ContextCategory) :
    addItems output name c =
      c.map (fun cat =>
        { cat with items := cat.items ++ sectionItems output name }) := by
  cases c <;> rfl

theorem nextSection_mcp (output : List Char) (q1 q2 q3 q4 : ℕ)
    (hn12 : strFind output agentsL (q1 + mcpL.length) = some q2)
    (hn13 : strFind output memoryL (q1 + mcpL.length) = some q3)
    (hn14 : strFind output skillsL (q1 + mcpL.length) = some q4)
    (ho23 : q2 < q3) (ho34 : q3 < q4) (ho4 : q4 < output.length) :
    nextSection output mcpL q1 = q2 := by
  have h2len : q2 < output.length := by omega
  have h32 : ¬ q3 < q2 := by omega
  have h42 : ¬ q4 < q2 := by omega
  simp [nextSection, sectionNames, hn12, hn13, hn14, h2len, h32, h42,
    (by decide : agentsL ≠ mcpL), (by decide : memoryL ≠ mcpL),
    (by decide : skillsL ≠ mcpL)]

theorem nextSection_agents (output : List Char) (q2 q3 q4 : ℕ)
    (hn21 : strFind output mcpL (q2 + agentsL.length) = none)
    (hn23 : strFind output memoryL (q2 + agentsL.length) = some q3)
    (hn24 : strFind output skillsL (q2 + agentsL.length) = some q4)
    (ho34 : q3 < q4) (ho4 : q4 < output.length) :
    nextSection output agentsL q2 = q3 := by
  have h3len : q3 < output.length := by omega
  have h43 : ¬ q4 < q3 := by omega
  simp [nextSection, sectionNames, hn21, hn23, hn24, h3len, h43,
    (by decide : mcpL ≠ agentsL), (by decide : memoryL ≠ agentsL),
    (by decide : skillsL ≠ agentsL)]

theorem nextSection_memory (output : List Char) (q3 q4 : ℕ)
    (hn31 : strFind output mcpL (q3 + memoryL.length) = none)
    (hn32 : strFind output agentsL (q3 + memoryL.length) = none)
    (hn34 : strFind output skillsL (q3 + memoryL.length) = some q4)
    (ho4 : q4 < output.length) :
    nextSection output memoryL q3 = q4 := by
  simp [nextSection, sectionNames, hn31, hn32, hn34, ho4,
    (by decide : mcpL ≠ memoryL), (by decide : agentsL ≠ memoryL),
    (by decide : skillsL ≠ memoryL)]

theorem nextSection_skills (output : List Char) (q4 : ℕ)
    (hn41 : strFind output mcpL (q4 + skillsL.length) = none)
    (hn42 : strFind output agentsL (q4 + skillsL.length) = none)
    (hn43 : strFind output memoryL (q4 + skillsL.length) = none) :
    nextSection output skillsL q4 = output.length := by
  simp [nextSection, sectionNames, hn41, hn42, hn43,
    (by decide : mcpL ≠ skillsL), (by decide : agentsL ≠ skillsL),
    (by decide : memoryL ≠ skillsL)]

/-- C6: in the canonical layout - each item-bearing section introduced
by its label text, the sections following the summary block in table
order, so that the four label searches resolve to positions
q1 < q2 < q3 < q4 and no earlier label recurs after a later section
start - every item entry matched after the Skills label up to the end
of input (the earliest subsequent other label being absent) is
appended to the skills category, and to no other: the other three
categories draw their items from the pairwise disjoint earlier spans
[q1, q2), [q2, q3) and [q3, q4). -/
theorem C6_skills_item_attribution (output : List Char) (q1 q2 q3 q4 : ℕ)
    (hcu : containsSub output ("Context Usage".data) = true)
    (hs1 : sectionStart output mcpL = some q1)
    (hs2 : sectionStart output agentsL = some q2)
    (hs3 : sectionStart output memoryL = some q3)
    (hs4 : sectionStart output skillsL = some q4)
    (hn12 : strFind output agentsL (q1 + mcpL.length) = some q2)
    (hn13 : strFind output memoryL (q1 + mcpL.length) = some q3)
    (hn14 : strFind output skillsL (q1 + mcpL.length) = some q4)
    (hn21 : strFind output mcpL (q2 + agentsL.length) = none)
    (hn23 : strFind output memoryL (q2 + agentsL.length) = some q3)
    (hn24 : strFind output skillsL (q2 + agentsL.length) = some q4)
    (hn31 : strFind output mcpL (q3 + memoryL.length) = none)
    (hn32 : strFind output agentsL (q3 + memoryL.length) = none)
    (hn34 : strFind output skillsL (q3 + memoryL.length) = some q4)
    (hn41 : strFind output mcpL (q4 + skillsL.length) = none)
    (hn42 : strFind output agentsL (q4 + skillsL.length) = none)
    (hn43 : strFind output memoryL (q4 + skillsL.length) = none)
    (ho12 : q1 < q2) (ho23 : q2 < q3) (ho34 : q3 < q4)
    (ho4 : q4 < output.length) :
    ∃ b, parse_context_output output = some b ∧
      b.skills =
        (categoryPhase output (headerPhase output emptyBreakdown)).skills.map
          (fun c => { c with items := c.items ++ scanItems (output.drop q4) }) ∧
      b.mcp_tools =
        (categoryPhase output (headerPhase output emptyBreakdown)).mcp_tools.map
          (fun c => { c with items := c.items ++ scanItems ((output.take q2).drop q1) }) ∧
      b.custom_agents =
        (categoryPhase output (headerPhase output emptyBreakdown)).custom_agents.map
          (fun c => { c with items := c.items ++ scanItems ((output.take q3).drop q2) }) ∧
      b.memory_files =
        (categoryPhase output (headerPhase output emptyBreakdown)).memory_files.map
          (fun c => { c with items := c.items ++ scanItems ((output.take q4).drop q3) }) := by
  have hsec1 : sectionItems output mcpL = scanItems ((output.take q2).drop q1) := by
    simp only [sectionItems, hs1,
      nextSection_mcp output q1 q2 q3 q4 hn12 hn13 hn14 ho23 ho34 ho4]
  have hsec2 : sectionItems output agentsL = scanItems ((output.take q3).drop q2) := by
    simp only [sectionItems, hs2,
      nextSection_agents output q2 q3 q4 hn21 hn23 hn24 ho34 ho4]
  have hsec3 : sectionItems output memoryL = scanItems ((output.take q4).drop q3) := by
    simp only [sectionItems, hs3,
      nextSection_memory output q3 q4 hn31 hn32 hn34 ho4]
  have hsec4 : sectionItems output skillsL = scanItems (output.drop q4) := by
    simp only [sectionItems, hs4,
      nextSection_skills output q4 hn41 hn42 hn43]
    rw [List.take_length]
  refine ⟨itemPhase output (categoryPhase output (headerPhase output emptyBreakdown)),
    ?_, ?_, ?_, ?_, ?_⟩
  · simp [parse_context_output, hcu]
  · show addItems output skillsL
        ((categoryPhase output (headerPhase output emptyBreakdown)).skills) = _
    rw [addItems_eq_map]
    simp only [hsec4]
  · show addItems output mcpL
        ((categoryPhase output (headerPhase output emptyBreakdown)).mcp_tools) = _
    rw [addItems_eq_map]
    simp only [hsec1]
  · show addItems output agentsL
        ((categoryPhase output (headerPhase output emptyBreakdown)).custom_agents) = _
    rw [addItems_eq_map]
    simp only [hsec2]
  · show addItems output memoryL
        ((categoryPhase output (headerPhase output emptyBreakdown)).memory_files) = _
    rw [addItems_eq_map]
    simp only [hsec3]

/-- A canonical report: summary block, then the four item-bearing
sections in table order, each introduced by its label. The section
labels sit at positions 131, 167, 209 and 251. -/
def c6Sample : List Char :=
  ("Context Usage\n⛁ MCP tools: 100 tokens (1%)\n⛁ Custom agents: 50 tokens (1%)\n⛁ Memory files: 60 tokens (1%)\n⛁ Skills: 70 tokens (1%)\nMCP tools · /mcp\n└ alpha: 10 tokens\nCustom agents · /agents\n└ beta: 20 tokens\nMemory files · /memory\n└ gamma: 30 tokens\nSkills · /skills\n└ delta: 40 tokens\n└ eps: 7 tokens\n").data

theorem C6_skills_item_attribution_witness :
    (containsSub c6Sample ("Context Usage".data) = true ∧
     sectionStart c6Sample mcpL = some 131 ∧
     sectionStart c6Sample agentsL = some 167 ∧
     sectionStart c6Sample memoryL = some 209 ∧
     sectionStart c6Sample skillsL = some 251 ∧
     strFind c6Sample agentsL (131 + mcpL.length) = some 167 ∧
     strFind c6Sample memoryL (131 + mcpL.length) = some 209 ∧
     strFind c6Sample skillsL (131 + mcpL.length) = some 251 ∧
     strFind c6Sample mcpL (167 + agentsL.length) = none ∧
     strFind c6Sample memoryL (167 + agentsL.length) = some 209 ∧
     strFind c6Sample skillsL (167 + agentsL.length) = some 251 ∧
     strFind c6Sample mcpL (209 + memoryL.length) = none ∧
     strFind c6Sample agentsL (209 + memoryL.length) = none ∧
     strFind c6Sample skillsL (209 + memoryL.length) = some 251 ∧
     strFind c6Sample mcpL (251 + skillsL.length) = none ∧
     strFind c6Sample agentsL (251 + skillsL.length) = none ∧
     strFind c6Sample memoryL (251 + skillsL.length) = none ∧
     131 < 167 ∧ 167 < 209 ∧ 209 < 251 ∧ 251 < c6Sample.length) ∧
    (∃ b, parse_context_output c6Sample = some b ∧
      b.skills =
        (categoryPhase c6Sample (headerPhase c6Sample emptyBreakdown)).skills.map
          (fun c => { c with items := c.items ++ scanItems (c6Sample.drop 251) }) ∧
      b.mcp_tools =
        (categoryPhase c6Sample (headerPhase c6Sample emptyBreakdown)).mcp_tools.map
          (fun c => { c with items := c.items ++ scanItems ((c6Sample.take 167).drop 131) }) ∧
      b.custom_agents =
        (categoryPhase c6Sample (headerPhase c6Sample emptyBreakdown)).custom_agents.map
          (fun c => { c with items := c.items ++ scanItems ((c6Sample.take 209).drop 167) }) ∧
      b.memory_files =
        (categoryPhase c6Sample (headerPhase c6Sample emptyBreakdown)).memory_files.map
          (fun c => { c with items := c.items ++ scanItems ((c6Sample.take 251).drop 209) })) := by
  have hall : containsSub c6Sample ("Context Usage".data) = true ∧
      sectionStart c6Sample mcpL = some 131 ∧
      sectionStart c6Sample agentsL = some 167 ∧
      sectionStart c6Sample memoryL = some 209 ∧
      sectionStart c6Sample skillsL = some 251 ∧
      strFind c6Sample agentsL (131 + mcpL.length) = some 167 ∧
      strFind c6Sample memoryL (131 + mcpL.length) = some 209 ∧
      strFind c6Sample skillsL (131 + mcpL.length) = some 251 ∧
      strFind c6Sample mcpL (167 + agentsL.length) = none ∧
      strFind c6Sample memoryL (167 + agentsL.length) = some 209 ∧
      strFind c6Sample skillsL (167 + agentsL.length) = some 251 ∧
      strFind c6Sample mcpL (209 + memoryL.length) = none ∧
      strFind c6Sample agentsL (209 + memoryL.length) = none ∧
      strFind c6Sample skillsL (209 + memoryL.length) = some 251 ∧
      strFind c6Sample mcpL (251 + skillsL.length) = none ∧
      strFind c6Sample agentsL (251 + skillsL.length) = none ∧
      strFind c6Sample memoryL (251 + skillsL.length) = none ∧
      131 < 167 ∧ 167 < 209 ∧ 209 < 251 ∧ 251 < c6Sample.length := by
    decide
  refine ⟨hall, ?_⟩
  obtain ⟨p1, p2, p3, p4, p5, p6, p7, p8, p9, p10, p11, p12, p13, p14,
    p15, p16, p17, p18, p19, p20, p21⟩ := hall
  exact C6_skills_item_attribution c6Sample 131 167 209 251 p1 p2 p3 p4
    p5 p6 p7 p8 p9 p10 p11 p12 p13 p14 p15 p16 p17 p18 p19 p20 p21

end ContextParser

end Jacques
